import Mathlib

/-
Verification of the resource-synthesis core of k8r (k8s-run), a CLI tool that
turns ad-hoc workloads into Kubernetes Job objects.  The definitions below are
a shallow embedding of the Python source `k8r.py`: pure string algorithms are
translated directly, and interactions with the operating system and the
Kubernetes API (file-system tests, existing jobs, discovered secrets) are
represented by an explicit environment record.  Python `str` methods are
modelled on their ASCII fragment (`str.lower`/`str.upper` as the usual
ASCII case maps), which is the fragment the tool's regexes operate on.
-/

namespace K8r

/-! ## Character classes used by `sanitize_k8s_name` (k8r.py lines 859-884) -/

/-- Membership in the regex class `[a-z0-9]`. -/
def isLowerAlnum (c : Char) : Bool :=
  (decide (97 ≤ c.toNat) && decide (c.toNat ≤ 122)) ||
    (decide (48 ≤ c.toNat) && decide (c.toNat ≤ 57))

/-- Membership in the regex class `[-.]` (hyphen or dot). -/
def isDashDot (c : Char) : Bool := c == '-' || c == '.'

/-- Membership in the regex class `[a-z0-9.-]` of characters the sanitizer keeps. -/
def isAllowed (c : Char) : Bool := isLowerAlnum c || isDashDot c

/-- Negation of `isLowerAlnum`, the class `[^a-z0-9]` stripped from both ends. -/
def notAl (c : Char) : Bool := ! isLowerAlnum c

/-- ASCII fragment of Python `str.lower`: map A-Z to a-z, keep the rest. -/
def charLower (c : Char) : Char :=
  if 65 ≤ c.toNat ∧ c.toNat ≤ 90 then Char.ofNat (c.toNat + 32) else c

/-- ASCII fragment of Python `str.upper`: map a-z to A-Z, keep the rest. -/
def charUpper (c : Char) : Char :=
  if 97 ≤ c.toNat ∧ c.toNat ≤ 122 then Char.ofNat (c.toNat - 32) else c

/-! ### Models of the Python string methods used by the tool

These operate on the character list of a `String`, so that every definition
evaluates inside the kernel.  They model the ASCII fragment of the
corresponding Python `str` methods. -/

/-- Whitespace characters stripped by Python `str.strip()` (ASCII fragment). -/
def isSpace (c : Char) : Bool :=
  c == ' ' || c == '\t' || c == '\n' || c == '\r' || c == '\x0b' || c == '\x0c'

/-- Model of Python `str.strip()`: drop whitespace from both ends. -/
def pyStrip (s : String) : String :=
  ⟨((s.data.dropWhile isSpace).reverse.dropWhile isSpace).reverse⟩

/-- Model of Python `str.startswith(p)`. -/
def pyStartsWith (s p : String) : Bool :=
  s.data.take p.data.length == p.data

/-- Model of Python `str.endswith(p)`. -/
def pyEndsWith (s p : String) : Bool :=
  s.data.reverse.take p.data.length == p.data.reverse

/-- Model of Python slicing `s[:-n]`: drop the last `n` characters. -/
def pyDropRight (s : String) (n : Nat) : String :=
  ⟨s.data.take (s.data.length - n)⟩

/-- Model of Python `str.upper()` (ASCII fragment). -/
def pyUpper (s : String) : String := ⟨s.data.map charUpper⟩

/-- Model of Python `str.lower()` (ASCII fragment). -/
def pyLower (s : String) : String := ⟨s.data.map charLower⟩

/-- Split at the first occurrence of `sep`, if any: the pair of the characters
before and after it.  This is the engine of Python `str.split(sep, 1)`. -/
def pySplitFirst (sep : Char) : List Char → Option (List Char × List Char)
  | [] => none
  | c :: rest =>
    if c == sep then some ([], rest)
    else
      match pySplitFirst sep rest with
      | some (a, b) => some (c :: a, b)
      | none => none

/-- Model of Python `str.split(sep)` for a one-character separator. -/
def pySplitAux (sep : Char) : List Char → List Char → List String
  | [], acc => [⟨acc.reverse⟩]
  | c :: rest, acc =>
    if c == sep then ⟨acc.reverse⟩ :: pySplitAux sep rest []
    else pySplitAux sep rest (c :: acc)

/-- Model of Python `str.split(sep)` for a one-character separator. -/
def pySplit (s : String) (sep : Char) : List String := pySplitAux sep s.data []

/-- Engine of Python `str.replace(t, r)`: replace every non-overlapping
occurrence of `t` (scanning left to right) by `r`.  The fuel argument, set to
the input length, makes the recursion structural; every step consumes at least
one character, so the fuel never runs out on the `pyReplace` call below. -/
def pyReplaceFuel (t r : List Char) : Nat → List Char → List Char
  | _, [] => []
  | 0, l => l
  | Nat.succ fuel, c :: rest =>
    if !t.isEmpty && ((c :: rest).take t.length == t) then
      r ++ pyReplaceFuel t r fuel ((c :: rest).drop t.length)
    else
      c :: pyReplaceFuel t r fuel rest

/-- Model of Python `str.replace(t, r)`. -/
def pyReplace (s t r : String) : String :=
  ⟨pyReplaceFuel t.data r.data s.data.length s.data⟩

/-- Digit accumulator of the model of Python `int()` (base 10, ASCII). -/
def pyToNat? (l : List Char) : Option Nat :=
  if l = [] then none
  else
    l.foldl
      (fun acc c =>
        match acc with
        | none => none
        | some n =>
          if 48 ≤ c.toNat ∧ c.toNat ≤ 57 then some (n * 10 + (c.toNat - 48)) else none)
      (some 0)

/-- Model of Python `int(s)` (base 10, ASCII fragment): surrounding whitespace
and one optional sign are accepted, then at least one digit. -/
def pyInt? (s : String) : Option Int :=
  match (pyStrip s).data with
  | '-' :: rest => (pyToNat? rest).map (fun n => -(n : Int))
  | '+' :: rest => (pyToNat? rest).map (fun n => (n : Int))
  | l => (pyToNat? l).map (fun n => (n : Int))

/-- Model of `re.sub(r'[^a-z0-9.-]', '-', name)`: a per-character replacement. -/
def replaceInvalid (l : List Char) : List Char :=
  l.map (fun c => if isAllowed c then c else '-')

/-- Model of `re.sub(r'[^a-z0-9]+$', '', name)`: drop the maximal trailing run of
non-alphanumeric characters. -/
def rstripNonAlnum (l : List Char) : List Char :=
  (l.reverse.dropWhile notAl).reverse

/-- Model of `re.sub(r'[-\.]+', '-', name)`: every maximal run of hyphens and dots
collapses to a single hyphen.  The boolean argument records whether we are
currently inside such a run. -/
def collapseAux : Bool → List Char → List Char
  | _, [] => []
  | inRun, c :: rest =>
    if isDashDot c then
      if inRun then collapseAux true rest else '-' :: collapseAux true rest
    else c :: collapseAux false rest

/-- Placeholder substituted for an empty sanitized name (`'unnamed'`). -/
def unnamedChars : List Char := ['u', 'n', 'n', 'a', 'm', 'e', 'd']

/-- Stages lowercase, replace, strip-left, strip-right of `sanitize_k8s_name`. -/
def sanitizeStripped (l : List Char) : List Char :=
  rstripNonAlnum ((replaceInvalid (l.map charLower)).dropWhile notAl)

/-- Stage collapse of `sanitize_k8s_name`: hyphen/dot runs become one hyphen. -/
def sanitizeCore (l : List Char) : List Char :=
  collapseAux false (sanitizeStripped l)

/-- Stage substituting the `unnamed` placeholder for an empty result. -/
def sanitizePadded (l : List Char) : List Char :=
  if sanitizeCore l = [] then unnamedChars else sanitizeCore l

/-- Character-list body of `sanitize_k8s_name` (k8r.py lines 859-884):
lowercase, replace the invalid characters, strip non-alphanumeric runs from
both ends, collapse hyphen/dot runs, substitute `unnamed` for the empty
result, then truncate to `maxLength` and re-strip the truncated end. -/
def sanitizeChars (l : List Char) (maxLength : Nat) : List Char :=
  if maxLength < (sanitizePadded l).length
  then rstripNonAlnum ((sanitizePadded l).take maxLength)
  else sanitizePadded l

/-- Model of `K8sRun.sanitize_k8s_name(name, max_length=63)`. -/
def sanitize_k8s_name (name : String) (max_length : Nat := 63) : String :=
  ⟨sanitizeChars name.data max_length⟩

/-! ## Basic facts about the character classes -/

theorem isDashDot_eq (c : Char) (h : isDashDot c = true) : c = '-' ∨ c = '.' := by
  rcases Bool.or_eq_true_iff.mp h with h' | h' <;> [left; right] <;>
    exact beq_iff_eq.mp h'

theorem isLowerAlnum_toNat {c : Char} (h : isLowerAlnum c = true) :
    (97 ≤ c.toNat ∧ c.toNat ≤ 122) ∨ (48 ≤ c.toNat ∧ c.toNat ≤ 57) := by
  rcases Bool.or_eq_true_iff.mp h with h' | h' <;>
    rcases Bool.and_eq_true_iff.mp h' with ⟨h1, h2⟩ <;>
    [left; right] <;> exact ⟨of_decide_eq_true h1, of_decide_eq_true h2⟩

theorem not_isLowerAlnum_of_isDashDot {c : Char} (h : isDashDot c = true) :
    isLowerAlnum c = false := by
  rcases isDashDot_eq c h with rfl | rfl <;> decide

theorem not_isDashDot_of_isLowerAlnum {c : Char} (h : isLowerAlnum c = true) :
    isDashDot c = false := by
  by_contra hne
  have hd : isDashDot c = true := by
    cases hh : isDashDot c
    · exact absurd hh hne
    · rfl
  rw [not_isLowerAlnum_of_isDashDot hd] at h
  exact Bool.false_ne_true h

theorem charLower_fixed {c : Char} (h : isLowerAlnum c = true ∨ c = '-') :
    charLower c = c := by
  rcases h with h | rfl
  · have := isLowerAlnum_toNat h
    rw [charLower, if_neg]
    omega
  · decide

theorem isAllowed_of_isLowerAlnum {c : Char} (h : isLowerAlnum c = true) :
    isAllowed c = true := by
  rw [isAllowed, h, Bool.true_or]

theorem notAl_false_iff {c : Char} : notAl c = false ↔ isLowerAlnum c = true := by
  rw [notAl]
  cases h : isLowerAlnum c <;> simp

/-! ## Properties of the hyphen/dot collapse -/

/-- Two adjacent characters are never both hyphen-or-dot. -/
def noRun (a b : Char) : Prop := ¬(isDashDot a = true ∧ isDashDot b = true)

instance (a b : Char) : Decidable (noRun a b) :=
  inferInstanceAs (Decidable (¬(isDashDot a = true ∧ isDashDot b = true)))

theorem collapseAux_nil (b : Bool) : collapseAux b [] = [] := by
  cases b <;> rfl

theorem collapseAux_cons_bad_true {c : Char} (h : isDashDot c = true) (rest : List Char) :
    collapseAux true (c :: rest) = collapseAux true rest := by
  simp [collapseAux, h]

theorem collapseAux_cons_bad_false {c : Char} (h : isDashDot c = true) (rest : List Char) :
    collapseAux false (c :: rest) = '-' :: collapseAux true rest := by
  simp [collapseAux, h]

theorem collapseAux_cons_good {c : Char} (h : isDashDot c = false) (b : Bool) (rest : List Char) :
    collapseAux b (c :: rest) = c :: collapseAux false rest := by
  cases b <;> simp [collapseAux, h]

theorem collapseAux_chain (l : List Char) :
    (∀ c, (collapseAux true l).head? = some c → isDashDot c = false)
      ∧ List.Chain' noRun (collapseAux true l)
      ∧ List.Chain' noRun (collapseAux false l) := by
  induction l with
  | nil => refine ⟨fun c hc => ?_, by simp [collapseAux], by simp [collapseAux]⟩
           simp [collapseAux] at hc
  | cons c rest ih =>
    by_cases hc : isDashDot c = true
    · rw [collapseAux_cons_bad_true hc, collapseAux_cons_bad_false hc]
      refine ⟨ih.1, ih.2.1, ?_⟩
      rw [List.chain'_cons']
      refine ⟨fun y hy => ?_, ih.2.1⟩
      intro ⟨_, hby⟩
      rw [ih.1 y hy] at hby
      exact Bool.false_ne_true hby
    · have hc' : isDashDot c = false := by
        cases h : isDashDot c
        · rfl
        · exact absurd h hc
      rw [collapseAux_cons_good hc' true, collapseAux_cons_good hc' false]
      have hchain : List.Chain' noRun (c :: collapseAux false rest) := by
        rw [List.chain'_cons']
        refine ⟨fun y _ => ?_, ih.2.2⟩
        intro ⟨hbc, _⟩
        rw [hc'] at hbc
        exact Bool.false_ne_true hbc
      refine ⟨fun d hd => ?_, hchain, hchain⟩
      have hdc : c = d := by simpa [List.head?] using hd
      rw [← hdc]
      exact hc'

theorem collapseAux_mem (b : Bool) (l : List Char) :
    ∀ c ∈ collapseAux b l, c ∈ l ∨ c = '-' := by
  induction l generalizing b with
  | nil => intro c hc; rw [collapseAux_nil] at hc; cases hc
  | cons x rest ih =>
    intro c hc
    by_cases hx : isDashDot x = true
    · cases b with
      | true =>
        rw [collapseAux_cons_bad_true hx] at hc
        rcases ih true c hc with h | h
        · exact Or.inl (List.mem_cons_of_mem x h)
        · exact Or.inr h
      | false =>
        rw [collapseAux_cons_bad_false hx] at hc
        rcases List.mem_cons.mp hc with rfl | hmem
        · exact Or.inr rfl
        · rcases ih true c hmem with h | h
          · exact Or.inl (List.mem_cons_of_mem x h)
          · exact Or.inr h
    · have hx' : isDashDot x = false := by
        cases h : isDashDot x
        · rfl
        · exact absurd h hx
      rw [collapseAux_cons_good hx' b] at hc
      rcases List.mem_cons.mp hc with rfl | hmem
      · exact Or.inl (List.mem_cons_self c rest)
      · rcases ih false c hmem with h | h
        · exact Or.inl (List.mem_cons_of_mem x h)
        · exact Or.inr h

theorem collapseAux_no_dot (b : Bool) (l : List Char) :
    ∀ c ∈ collapseAux b l, isDashDot c = true → c = '-' := by
  induction l generalizing b with
  | nil => intro c hc; rw [collapseAux_nil] at hc; cases hc
  | cons x rest ih =>
    intro c hc hdd
    by_cases hx : isDashDot x = true
    · cases b with
      | true =>
        rw [collapseAux_cons_bad_true hx] at hc
        exact ih true c hc hdd
      | false =>
        rw [collapseAux_cons_bad_false hx] at hc
        rcases List.mem_cons.mp hc with rfl | hmem
        · rfl
        · exact ih true c hmem hdd
    · have hx' : isDashDot x = false := by
        cases h : isDashDot x
        · rfl
        · exact absurd h hx
      rw [collapseAux_cons_good hx' b] at hc
      rcases List.mem_cons.mp hc with rfl | hmem
      · rw [hx'] at hdd; exact absurd hdd Bool.false_ne_true
      · exact ih false c hmem hdd

theorem collapseAux_getLast (b : Bool) (l : List Char) (a : Char)
    (hl : l.getLast? = some a) (ha : isDashDot a = false) :
    (collapseAux b l).getLast? = some a := by
  induction l generalizing b with
  | nil => cases hl
  | cons x rest ih =>
    cases rest with
    | nil =>
      rw [List.getLast?_singleton, Option.some_inj] at hl
      subst hl
      rw [collapseAux_cons_good ha b, collapseAux_nil, List.getLast?_singleton]
    | cons y t =>
      rw [List.getLast?_cons_cons] at hl
      have htail : ∀ b', (collapseAux b' (y :: t)).getLast? = some a := fun b' => ih b' hl
      have hne : ∀ b', collapseAux b' (y :: t) ≠ [] := by
        intro b' hnil
        have hx := htail b'
        rw [hnil] at hx
        cases hx
      have hcons : ∀ (z : Char) (m : List Char), m ≠ [] → m.getLast? = some a →
          (z :: m).getLast? = some a := by
        intro z m hm hlast
        cases m with
        | nil => exact absurd rfl hm
        | cons w u => rw [List.getLast?_cons_cons]; exact hlast
      by_cases hx : isDashDot x = true
      · cases b with
        | true => rw [collapseAux_cons_bad_true hx]; exact htail true
        | false =>
          rw [collapseAux_cons_bad_false hx]
          exact hcons '-' _ (hne true) (htail true)
      · have hx' : isDashDot x = false := by
          cases h : isDashDot x
          · rfl
          · exact absurd h hx
        rw [collapseAux_cons_good hx' b]
        exact hcons x _ (hne false) (htail false)

theorem collapseAux_id (l : List Char) (b : Bool)
    (hchain : List.Chain' noRun l) (hdot : ∀ c ∈ l, c ≠ '.')
    (hb : b = true → ∀ c, l.head? = some c → isDashDot c = false) :
    collapseAux b l = l := by
  induction l generalizing b with
  | nil => rw [collapseAux_nil]
  | cons x rest ih =>
    by_cases hx : isDashDot x = true
    · have hbF : b = false := by
        cases b
        · rfl
        · have h1 := hb rfl x rfl
          rw [hx] at h1
          exact absurd h1 (by decide)
      subst hbF
      have hxdash : x = '-' := by
        rcases isDashDot_eq x hx with h | h
        · exact h
        · exact absurd h (hdot x (List.mem_cons_self x rest))
      rw [collapseAux_cons_bad_false hx, hxdash]
      have hresthead : ∀ c, rest.head? = some c → isDashDot c = false := by
        intro c hcH
        have := (List.chain'_cons'.mp hchain).1 c hcH
        rw [noRun] at this
        cases h : isDashDot c
        · rfl
        · exact absurd ⟨hx, h⟩ this
      rw [ih true (List.chain'_cons'.mp hchain).2
        (fun c hcmem => hdot c (List.mem_cons_of_mem x hcmem)) (fun _ => hresthead)]
    · have hx' : isDashDot x = false := by
        cases h : isDashDot x
        · rfl
        · exact absurd h hx
      rw [collapseAux_cons_good hx' b]
      rw [ih false (List.chain'_cons'.mp hchain).2
        (fun c hcmem => hdot c (List.mem_cons_of_mem x hcmem)) (fun h => absurd h (by simp))]

/-! ## Properties of the strip operations -/

theorem head?_dropWhile_false {p : Char → Bool} {l : List Char} {c : Char}
    (h : (l.dropWhile p).head? = some c) : p c = false := by
  induction l with
  | nil => cases h
  | cons x rest ih =>
    by_cases hx : p x = true
    · rw [List.dropWhile_cons_of_pos hx] at h
      exact ih h
    · have hx' : p x = false := by
        cases hh : p x
        · rfl
        · exact absurd hh hx
      rw [List.dropWhile_cons_of_neg (by rw [hx']; exact Bool.false_ne_true)] at h
      rw [List.head?_cons, Option.some_inj] at h
      rw [← h]
      exact hx'

theorem dropWhile_eq_self_of_head {p : Char → Bool} {l : List Char} {c : Char}
    (hc : l.head? = some c) (hp : p c = false) : l.dropWhile p = l := by
  cases l with
  | nil => cases hc
  | cons x rest =>
    rw [List.head?_cons, Option.some_inj] at hc
    subst hc
    exact List.dropWhile_cons_of_neg (by rw [hp]; exact Bool.false_ne_true)

theorem rstrip_append (l : List Char) :
    rstripNonAlnum l ++ (l.reverse.takeWhile notAl).reverse = l := by
  have h := List.takeWhile_append_dropWhile (p := notAl) (l := l.reverse)
  have h2 := congrArg List.reverse h
  rw [List.reverse_append, List.reverse_reverse] at h2
  exact h2

theorem rstrip_sublist (l : List Char) : List.Sublist (rstripNonAlnum l) l := by
  conv_rhs => rw [← rstrip_append l]
  exact List.sublist_append_left _ _

theorem rstrip_getLast {l : List Char} {c : Char}
    (h : (rstripNonAlnum l).getLast? = some c) : isLowerAlnum c = true := by
  rw [rstripNonAlnum, List.getLast?_reverse] at h
  exact notAl_false_iff.mp (head?_dropWhile_false h)

theorem rstrip_head {l : List Char} {c : Char}
    (h : (rstripNonAlnum l).head? = some c) : l.head? = some c := by
  have happ := rstrip_append l
  cases hr : rstripNonAlnum l with
  | nil => rw [hr] at h; cases h
  | cons x t =>
    rw [hr] at h happ
    rw [List.head?_cons] at h
    rw [← happ, List.cons_append, List.head?_cons]
    exact h

theorem rstrip_chain {R : Char → Char → Prop} {l : List Char}
    (h : List.Chain' R l) : List.Chain' R (rstripNonAlnum l) := by
  rw [← rstrip_append l] at h
  exact (List.chain'_append.mp h).1

theorem rstrip_ne_nil {l : List Char} {c : Char} (hc : c ∈ l)
    (hgood : notAl c = false) : rstripNonAlnum l ≠ [] := by
  intro hnil
  rw [rstripNonAlnum, List.reverse_eq_nil_iff] at hnil
  have := List.dropWhile_eq_nil_iff.mp hnil c (List.mem_reverse.mpr hc)
  rw [hgood] at this
  exact Bool.false_ne_true this

theorem rstrip_id {l : List Char} {c : Char} (hc : l.getLast? = some c)
    (hgood : notAl c = false) : rstripNonAlnum l = l := by
  rw [rstripNonAlnum, dropWhile_eq_self_of_head (by rw [List.head?_reverse]; exact hc) hgood,
    List.reverse_reverse]

theorem head?_take {l : List Char} {n : Nat} {c : Char}
    (h : (l.take n).head? = some c) : l.head? = some c := by
  cases l with
  | nil => rw [List.take_nil] at h; cases h
  | cons x t =>
    cases n with
    | zero => cases h
    | succ m => rw [List.take_succ_cons, List.head?_cons] at h; rw [List.head?_cons]; exact h

/-! ## Characterization of the sanitizer output -/

theorem replaceInvalid_allowed (l : List Char) :
    ∀ c ∈ replaceInvalid l, isAllowed c = true := by
  intro c hc
  rw [replaceInvalid] at hc
  rcases List.mem_map.mp hc with ⟨x, _, hx⟩
  by_cases hax : isAllowed x = true
  · rw [if_pos hax] at hx; rw [← hx]; exact hax
  · rw [if_neg hax] at hx; rw [← hx]; decide

theorem sanitizeStripped_mem (l : List Char) :
    ∀ c ∈ sanitizeStripped l, isAllowed c = true := by
  intro c hc
  exact replaceInvalid_allowed _ c
    (((rstrip_sublist _).trans (List.dropWhile_sublist _)).mem hc)

theorem sanitizeStripped_head {l : List Char} {c : Char}
    (h : (sanitizeStripped l).head? = some c) : isLowerAlnum c = true :=
  notAl_false_iff.mp (head?_dropWhile_false (rstrip_head h))

theorem sanitizeStripped_getLast {l : List Char} {c : Char}
    (h : (sanitizeStripped l).getLast? = some c) : isLowerAlnum c = true :=
  rstrip_getLast h

theorem sanitizeCore_mem (l : List Char) :
    ∀ c ∈ sanitizeCore l, isLowerAlnum c = true ∨ c = '-' := by
  intro c hc
  rcases collapseAux_mem false _ c hc with hmem | rfl
  · have hall := sanitizeStripped_mem l c hmem
    rw [isAllowed] at hall
    rcases Bool.or_eq_true_iff.mp hall with h | h
    · exact Or.inl h
    · exact Or.inr (collapseAux_no_dot false _ c hc h)
  · exact Or.inr rfl

theorem sanitizeCore_chain (l : List Char) : List.Chain' noRun (sanitizeCore l) :=
  (collapseAux_chain (sanitizeStripped l)).2.2

theorem sanitizeCore_head {l : List Char} {c : Char}
    (h : (sanitizeCore l).head? = some c) : isLowerAlnum c = true := by
  rw [sanitizeCore] at h
  cases hs : sanitizeStripped l with
  | nil => rw [hs, collapseAux_nil] at h; cases h
  | cons x t =>
    have hx : isLowerAlnum x = true := sanitizeStripped_head (by rw [hs, List.head?_cons])
    rw [hs, collapseAux_cons_good (not_isDashDot_of_isLowerAlnum hx) false,
      List.head?_cons, Option.some_inj] at h
    rw [← h]
    exact hx

theorem sanitizeCore_getLast {l : List Char} {c : Char}
    (h : (sanitizeCore l).getLast? = some c) : isLowerAlnum c = true := by
  rw [sanitizeCore] at h
  cases hs : (sanitizeStripped l).getLast? with
  | none =>
    rw [List.getLast?_eq_none_iff] at hs
    rw [hs, collapseAux_nil] at h
    cases h
  | some a =>
    have ha : isLowerAlnum a = true := sanitizeStripped_getLast hs
    rw [collapseAux_getLast false _ a hs (not_isDashDot_of_isLowerAlnum ha),
      Option.some_inj] at h
    rw [← h]
    exact ha

theorem sanitizePadded_props (l : List Char) :
    (∀ c ∈ sanitizePadded l, isLowerAlnum c = true ∨ c = '-')
      ∧ (∀ c, (sanitizePadded l).head? = some c → isLowerAlnum c = true)
      ∧ (∀ c, (sanitizePadded l).getLast? = some c → isLowerAlnum c = true)
      ∧ List.Chain' noRun (sanitizePadded l)
      ∧ sanitizePadded l ≠ [] := by
  rw [sanitizePadded]
  by_cases hnil : sanitizeCore l = []
  · rw [if_pos hnil]
    refine ⟨?_, ?_, ?_, ?_, ?_⟩
    · intro c hc
      rw [unnamedChars] at hc
      fin_cases hc <;> simp [isLowerAlnum]
    · intro c hc
      rw [unnamedChars, List.head?_cons, Option.some_inj] at hc
      rw [← hc]
      decide
    · intro c hc
      rw [unnamedChars] at hc
      simp only [List.getLast?_cons_cons, List.getLast?_singleton, Option.some_inj] at hc
      rw [← hc]
      decide
    · rw [unnamedChars]
      simp only [List.chain'_cons, List.chain'_singleton, and_true]
      decide
    · rw [unnamedChars]; exact List.cons_ne_nil _ _
  · rw [if_neg hnil]
    exact ⟨sanitizeCore_mem l, fun c hc => sanitizeCore_head hc,
      fun c hc => sanitizeCore_getLast hc, sanitizeCore_chain l, hnil⟩

/-- Full characterization of `sanitizeChars`: bounded length, only lowercase
alphanumerics and single hyphens, alphanumeric ends, no hyphen/dot runs, and a
nonempty result whenever at least one character is permitted. -/
theorem sanitizeChars_props (l : List Char) (m : Nat) :
    (sanitizeChars l m).length ≤ m
      ∧ (∀ c ∈ sanitizeChars l m, isLowerAlnum c = true ∨ c = '-')
      ∧ (∀ c, (sanitizeChars l m).head? = some c → isLowerAlnum c = true)
      ∧ (∀ c, (sanitizeChars l m).getLast? = some c → isLowerAlnum c = true)
      ∧ List.Chain' noRun (sanitizeChars l m)
      ∧ (1 ≤ m → sanitizeChars l m ≠ []) := by
  obtain ⟨hmem, hhead, hlast, hchain, hne⟩ := sanitizePadded_props l
  rw [sanitizeChars]
  by_cases htr : m < (sanitizePadded l).length
  · rw [if_pos htr]
    refine ⟨?_, ?_, ?_, ?_, ?_, ?_⟩
    · calc (rstripNonAlnum ((sanitizePadded l).take m)).length
          ≤ ((sanitizePadded l).take m).length := (rstrip_sublist _).length_le
        _ ≤ m := by rw [List.length_take]; omega
    · intro c hc
      exact hmem c (((rstrip_sublist _).trans (List.take_sublist _ _)).mem hc)
    · intro c hc
      exact hhead c (head?_take (rstrip_head hc))
    · intro c hc
      exact rstrip_getLast hc
    · exact rstrip_chain ((hchain.take) m)
    · intro hm hnil
      cases hp : sanitizePadded l with
      | nil => exact hne hp
      | cons x t =>
        have hx : isLowerAlnum x = true := hhead x (by rw [hp, List.head?_cons])
        have hxmem : x ∈ (sanitizePadded l).take m := by
          rw [hp]
          cases m with
          | zero => omega
          | succ k => rw [List.take_succ_cons]; exact List.mem_cons_self x _
        exact rstrip_ne_nil hxmem (notAl_false_iff.mpr hx) hnil
  · rw [if_neg htr]
    exact ⟨by omega, hmem, hhead, hlast, hchain, fun _ => hne⟩

/-! ## Idempotence of the sanitizer -/

theorem isAllowed_of_output {c : Char} (h : isLowerAlnum c = true ∨ c = '-') :
    isAllowed c = true := by
  rcases h with h | rfl
  · exact isAllowed_of_isLowerAlnum h
  · decide

theorem sanitizeChars_idem (l : List Char) :
    sanitizeChars (sanitizeChars l 63) 63 = sanitizeChars l 63 := by
  obtain ⟨hlen, hmem, hhead, hlast, hchain, hne⟩ := sanitizeChars_props l 63
  set r := sanitizeChars l 63 with hr
  have hrne : r ≠ [] := hne (by omega)
  obtain ⟨x, t, hxt⟩ : ∃ x t, r = x :: t := by
    cases hc : r with
    | nil => exact absurd hc hrne
    | cons x t => exact ⟨x, t, rfl⟩
  have hheadx : r.head? = some x := by rw [hxt]; rfl
  have hxal : isLowerAlnum x = true := hhead x hheadx
  obtain ⟨a, hga⟩ : ∃ a, r.getLast? = some a := by
    cases hg : r.getLast? with
    | none => exact absurd (List.getLast?_eq_none_iff.mp hg) hrne
    | some a => exact ⟨a, rfl⟩
  have haal : isLowerAlnum a = true := hlast a hga
  have h1 : r.map charLower = r := by
    rw [List.map_congr_left (fun c hc => charLower_fixed (hmem c hc) : ∀ c ∈ r, charLower c = (fun a => a) c),
      List.map_id']
  have h2 : replaceInvalid r = r := by
    rw [replaceInvalid,
      List.map_congr_left
        (fun c hc => if_pos (isAllowed_of_output (hmem c hc)) : ∀ c ∈ r,
          (if isAllowed c then c else '-') = (fun a => a) c),
      List.map_id']
  have h3 : r.dropWhile notAl = r :=
    dropWhile_eq_self_of_head hheadx (notAl_false_iff.mpr hxal)
  have h4 : rstripNonAlnum r = r := rstrip_id hga (notAl_false_iff.mpr haal)
  have hdot : ∀ c ∈ r, c ≠ '.' := by
    intro c hc hdot
    subst hdot
    rcases hmem _ hc with h | h
    · exact absurd h (by decide)
    · exact absurd h (by decide)
  have h5 : collapseAux false r = r :=
    collapseAux_id r false hchain hdot (fun h => absurd h Bool.false_ne_true)
  have hstr : sanitizeStripped r = r := by
    rw [sanitizeStripped, h1, h2, h3, h4]
  have hcore : sanitizeCore r = r := by rw [sanitizeCore, hstr, h5]
  have hpad : sanitizePadded r = r := by rw [sanitizePadded, hcore, if_neg hrne]
  rw [sanitizeChars, hpad, if_neg (by omega)]

/-- C1: for every input string and the default max length, `sanitize_k8s_name`
is idempotent: sanitizing an already-sanitized name returns it unchanged. -/
theorem sanitize_k8s_name_idempotent (x : String) :
    sanitize_k8s_name (sanitize_k8s_name x) = sanitize_k8s_name x :=
  congrArg String.mk (sanitizeChars_idem x.data)

/-- C2: for every input string and every non-negative requested max length, the
result of `sanitize_k8s_name` is no longer than the max length, starts and ends
with a lowercase alphanumeric character whenever it is nonempty, and contains
no run of two or more consecutive hyphen/dot characters. -/
theorem sanitize_k8s_name_bounds (s : String) (m : Nat) :
    (sanitize_k8s_name s m).length ≤ m
      ∧ (∀ c, (sanitize_k8s_name s m).data.head? = some c → isLowerAlnum c = true)
      ∧ (∀ c, (sanitize_k8s_name s m).data.getLast? = some c → isLowerAlnum c = true)
      ∧ List.Chain' noRun (sanitize_k8s_name s m).data := by
  obtain ⟨hlen, _, hhead, hlast, hchain, _⟩ := sanitizeChars_props s.data m
  exact ⟨hlen, hhead, hlast, hchain⟩

/-- Witness for C2 at a concrete input: the sanitized form of
`"Hello, World!"` starts with the alphanumeric character `h`. -/
theorem sanitize_k8s_name_bounds_witness :
    (sanitize_k8s_name "Hello, World!" 63).data.head? = some 'h'
      ∧ isLowerAlnum 'h' = true :=
  ⟨by rfl, (sanitize_k8s_name_bounds "Hello, World!" 63).2.1 'h' (by rfl)⟩

/-- C10: for every input string and max length, the output of
`sanitize_k8s_name` never contains a dot at all: every dot, even a single one
between alphanumerics, is rewritten to a hyphen by the collapse step. -/
theorem sanitize_k8s_name_no_dot (s : String) (m : Nat) :
    (sanitize_k8s_name s m).contains '.' = false := by
  rw [Bool.eq_false_iff]
  intro hcon
  have hmem : '.' ∈ (sanitize_k8s_name s m).data :=
    (String.contains_iff _ '.').mp hcon
  rcases (sanitizeChars_props s.data m).2.1 '.' hmem with h | h
  · exact absurd h (by decide)
  · exact absurd h (by decide)

/-! ## ResourceSpecParser: `parse_resource_spec` (k8r.py lines 77-102) -/

/-- Model of the nested `normalize_quantity`: strip surrounding whitespace, then
rewrite a `gb` suffix to `Gi` and an `mb` suffix to `Mi`; any other suffix
passes through unchanged. -/
def normalize_quantity (value : String) : String :=
  let v := pyStrip value
  if pyEndsWith v "gb" then pyDropRight v 2 ++ "Gi"
  else if pyEndsWith v "mb" then pyDropRight v 2 ++ "Mi"
  else v

/-- Model of `K8sRun.parse_resource_spec`.  `None` and the empty string are
falsy in Python, so both return `none`.  `spec.split('-', 1)` with a hyphen
present yields the text before the first hyphen and the remainder, modelled by
`pySplitFirst`; the source's guard `len(parts) == 2` falls through to the
single-value branch, modelled by the (equally dead) `none` arm. -/
def parse_resource_spec (resource_spec : Option String) : Option (String × String) :=
  match resource_spec with
  | none => none
  | some spec =>
    if spec = "" then none
    else if spec.data.contains '-' then
      match pySplitFirst '-' spec.data with
      | some (p, q) => some (normalize_quantity ⟨p⟩, normalize_quantity ⟨q⟩)
      | none => some (normalize_quantity spec, normalize_quantity spec)
    else some (normalize_quantity spec, normalize_quantity spec)

/-- C5: the concrete examples of `parse_resource_spec`, together with the
general shape: a single quantity sets request and limit to the same normalized
value, a hyphenated pair sets request from the left part and limit from the
right part, and `gb`/`mb` suffixes are rewritten to `Gi`/`Mi` while any other
suffix passes through unchanged. -/
theorem parse_resource_spec_spec :
    parse_resource_spec (some "8gb") = some ("8Gi", "8Gi")
      ∧ parse_resource_spec (some "2gb-8gb") = some ("2Gi", "8Gi")
      ∧ parse_resource_spec (some "500m-2000m") = some ("500m", "2000m")
      ∧ parse_resource_spec none = none
      ∧ (∀ s : String, s ≠ "" → s.data.contains '-' = false →
          parse_resource_spec (some s) = some (normalize_quantity s, normalize_quantity s))
      ∧ (∀ (s : String) (p q : List Char), s.data.contains '-' = true →
          pySplitFirst '-' s.data = some (p, q) →
          parse_resource_spec (some s) = some (normalize_quantity ⟨p⟩, normalize_quantity ⟨q⟩))
      ∧ (∀ v : String, pyEndsWith (pyStrip v) "gb" = true →
          normalize_quantity v = pyDropRight (pyStrip v) 2 ++ "Gi")
      ∧ (∀ v : String, pyEndsWith (pyStrip v) "gb" = false →
          pyEndsWith (pyStrip v) "mb" = true →
          normalize_quantity v = pyDropRight (pyStrip v) 2 ++ "Mi")
      ∧ (∀ v : String, pyEndsWith (pyStrip v) "gb" = false →
          pyEndsWith (pyStrip v) "mb" = false →
          normalize_quantity v = pyStrip v) := by
  refine ⟨by rfl, by rfl, by rfl, by rfl, ?_, ?_, ?_, ?_, ?_⟩
  · intro s hne hcon
    rw [parse_resource_spec, if_neg hne, hcon]
    rfl
  · intro s p q hcon hsplit
    have hne : s ≠ "" := by
      intro h
      subst h
      exact absurd hcon (by decide)
    rw [parse_resource_spec, if_neg hne, hcon]
    simp only [if_true]
    rw [hsplit]
  · intro v hgb
    rw [normalize_quantity]
    simp only [hgb, if_true]
  · intro v hgb hmb
    rw [normalize_quantity]
    simp only [hgb, hmb, if_false, if_true, Bool.false_eq_true]
  · intro v hgb hmb
    rw [normalize_quantity]
    simp only [hgb, hmb, if_false, Bool.false_eq_true]

/-- Witness for C5 at concrete inputs: a plain single quantity, a hyphenated
pair, and the three suffix rewriting cases. -/
theorem parse_resource_spec_spec_witness :
    parse_resource_spec (some "3") = some ("3", "3")
      ∧ parse_resource_spec (some "1g-2g") = some ("1g", "2g")
      ∧ normalize_quantity "4gb" = "4Gi"
      ∧ normalize_quantity "4mb" = "4Mi"
      ∧ normalize_quantity "700m" = "700m" := by
  refine ⟨?_, ?_, ?_, ?_, ?_⟩
  · exact parse_resource_spec_spec.2.2.2.2.1 "3" (by decide) (by rfl)
  · exact parse_resource_spec_spec.2.2.2.2.2.1 "1g-2g" "1g".data "2g".data (by rfl) (by rfl)
  · exact parse_resource_spec_spec.2.2.2.2.2.2.1 "4gb" (by rfl)
  · exact parse_resource_spec_spec.2.2.2.2.2.2.2.1 "4mb" (by rfl) (by rfl)
  · exact parse_resource_spec_spec.2.2.2.2.2.2.2.2 "700m" (by rfl) (by rfl)

/-- C9: `parse_resource_spec` treats the empty string exactly like an absent
specification: both return `none`, never a pair of empty quantities. -/
theorem parse_resource_spec_empty :
    parse_resource_spec (some "") = none ∧ parse_resource_spec none = none :=
  ⟨rfl, rfl⟩

/-! ## Environment: the operating system and Kubernetes API as seen by k8r

File-system predicates (`os.path.isfile`, `os.path.isdir`, `os.path.exists`),
process state (`os.getcwd`, `os.path.abspath`, `K8R_ORIGINAL_PWD`), and the
platform queries (`job_exists`, `get_job_secrets`, `build_and_push_dockerfile`)
are side-effecting collaborators of the pure logic; they are modelled as an
explicit record of oracles. -/

/-- Entry of the list returned by `get_job_secrets` (k8r.py lines 845-854):
the platform resource name, the logical secret-name label, and the data keys. -/
structure SecretInfo where
  name : String
  secret_name : String
  data_keys : List String
deriving DecidableEq, Repr

/-- Oracles for the OS and the Kubernetes API. -/
structure Env where
  isFile : String → Bool
  isDir : String → Bool
  pathExists : String → Bool
  originalPwd : Option String
  cwd : String
  abspath : String → String
  jobExists : String → Bool
  jobSecrets : String → List SecretInfo
  builtImage : String → String → String

/-! ## SourceResolver: `detect_source_type` (k8r.py lines 104-115) -/

/-- Model of `K8sRun.detect_source_type`: classify a source string, first match
wins; an unclassifiable source raises `ValueError`, modelled as `Except.error`. -/
def detect_source_type (env : Env) (source : String) : Except String String :=
  if source = "Dockerfile" || (env.isFile source && pyEndsWith source "Dockerfile") then
    Except.ok "dockerfile"
  else if pyStartsWith source "git@" || pyStartsWith source "https://github.com"
      || pyStartsWith source "http://github.com" then
    Except.ok "github"
  else if env.isDir source then
    Except.ok "directory"
  else if source.data.contains ':' && !env.pathExists source then
    Except.ok "container"
  else
    Except.error ("Could not determine source type for: " ++ source)

/-! ## Job naming: `generate_job_name` and `job_exists` (k8r.py lines 117-153) -/

/-- Model of `os.path.basename` on POSIX paths (also of Python
`source.split("/")[-1]`): the text after the last slash. -/
def basename (p : String) : String := (pySplit p '/').getLast!

/-- Replacement of `re.sub(r'[^a-z0-9-]', '-', source.lower())`: the fallback
base name for container-image sources (k8r.py line 133). -/
def fallbackBaseName (source : String) : String :=
  ⟨(source.data.map charLower).map
    (fun c => if isLowerAlnum c || c == '-' then c else '-')⟩

/-- Base-name computation of `generate_job_name` (k8r.py lines 119-133): the
explicit override when truthy, the working-directory basename for `.` and
`./`, the repository name for GitHub sources, the absolute-path basename for
directories, and the lowercased fallback rewrite otherwise.  A classification
error raised by `detect_source_type` propagates. -/
def baseNameOf (env : Env) (source : String) (jobName : Option String) :
    Except String String :=
  match jobName with
  | some n =>
    if n ≠ "" then Except.ok n
    else baseNameNoOverride env source
  | none => baseNameNoOverride env source
where
  baseNameNoOverride (env : Env) (source : String) : Except String String :=
    if source = "." || source = "./" then
      Except.ok (match env.originalPwd with
        | some p => if p ≠ "" && env.isDir p then basename p else basename env.cwd
        | none => basename env.cwd)
    else
      match detect_source_type env source with
      | Except.error e => Except.error e
      | Except.ok t =>
        if t = "github" then
          Except.ok (pyReplace (basename source) ".git" "")
        else if t = "directory" then
          Except.ok (basename (env.abspath source))
        else
          Except.ok (fallbackBaseName source)

/-- Error message raised when the generated job name already exists. -/
def conflictMessage (finalName : String) : String :=
  "Job \x27" ++ finalName ++ "\x27 already exists. Run again with --rm to remove that job first."

/-- Model of `K8sRun.generate_job_name` (k8r.py lines 117-143): sanitize the
base name to 55 characters (headroom for suffixes such as `-source`), then
fail-fast when a job with that name already exists unless `allow_existing`. -/
def generate_job_name (env : Env) (source : String) (jobName : Option String := none)
    (allowExisting : Bool := false) : Except String String :=
  match baseNameOf env source jobName with
  | Except.error e => Except.error e
  | Except.ok base =>
    let finalName := sanitize_k8s_name base 55
    if env.jobExists finalName && !allowExisting then
      Except.error (conflictMessage finalName)
    else
      Except.ok finalName

/-! ## Kubernetes object model (the fields k8r populates) -/

/-- Source of a `V1Volume`: a config map or a secret reference. -/
inductive VolumeSource where
  | configMap (name : String)
  | secret (secretName : String)
deriving DecidableEq, Repr

/-- Model of `client.V1Volume` as populated by k8r. -/
structure V1Volume where
  name : String
  source : VolumeSource
deriving DecidableEq, Repr

/-- Model of `client.V1VolumeMount` as populated by k8r. -/
structure V1VolumeMount where
  name : String
  mountPath : String
  subPath : Option String := none
  readOnly : Bool := false
deriving DecidableEq, Repr

/-- Model of `client.V1EnvVar` with a `secret_key_ref` value source. -/
structure V1EnvVar where
  name : String
  refName : String
  refKey : String
deriving DecidableEq, Repr

/-- Model of `client.V1Container` as populated by k8r. -/
structure V1Container where
  name : String
  image : String
  command : Option (List String)
  workingDir : Option String := none
  volumeMounts : List V1VolumeMount := []
  env : List V1EnvVar := []
deriving DecidableEq, Repr

/-- Model of `client.V1JobSpec` plus its pod template, restricted to the
fields k8r sets (k8r.py lines 307-332). -/
structure V1JobSpec where
  parallelism : Int
  completions : Int
  activeDeadlineSeconds : Int
  podLabels : List (String × String)
  containers : List V1Container
  volumes : List V1Volume
  restartPolicy : String
  backoffLimit : Int
deriving DecidableEq, Repr

/-- Model of `client.V1Job` as populated by k8r (k8r.py lines 335-344). -/
structure V1Job where
  name : String
  labels : List (String × String)
  spec : V1JobSpec
deriving DecidableEq, Repr

/-! ## Container construction per source kind (k8r.py lines 349-420) -/

/-- The fixed part of the directory-mode entrypoint script (k8r.py 352-360). -/
def directoryInitScript : String :=
  "set -e\ncd /workspace\necho \"Extracting source...\"\nbase64 -d /configmap/source.tar.gz | tar -xzf -\nif [ -f k8s-startup.sh ]; then\n    echo \"Running k8s-startup.sh...\"\n    chmod +x k8s-startup.sh\n    ./k8s-startup.sh\nfi"

/-- Model of `K8sRun.create_directory_container`: extraction script plus the
user command joined with spaces (unescaped, by design). -/
def create_directory_container (configmapName : String) (command : List String)
    (baseImage : String) : V1Container :=
  let commandStr := String.intercalate " " command
  let fullScript :=
    directoryInitScript ++ "\necho \x27Running command...\x27\n" ++ commandStr
  { name := "runner"
    image := baseImage
    command := some ["sh", "-c", fullScript]
    workingDir := some "/workspace"
    volumeMounts := [{ name := "source", mountPath := "/configmap" }]
    env := [] }

/-- The git-clone entrypoint script of GitHub mode (k8r.py 384-394). -/
def githubInitScript (githubUrl : String) : String :=
  "\nset -e\napk add --no-cache git\ncd /workspace\ngit clone " ++ githubUrl ++
    " .\nif [ -f k8s-startup.sh ]; then\n    echo \"Running k8s-startup.sh...\"\n    chmod +x k8s-startup.sh\n    ./k8s-startup.sh\nfi\n"

/-- Model of `K8sRun.create_github_container`. -/
def create_github_container (githubUrl : String) (command : List String)
    (baseImage : String) : V1Container :=
  let commandStr := String.intercalate " " command
  { name := "runner"
    image := baseImage
    command := some ["sh", "-c", githubInitScript githubUrl ++ " && " ++ commandStr]
    workingDir := some "/workspace"
    volumeMounts := []
    env := [] }

/-- Model of `K8sRun.create_container_container`: wrap a nonempty command in a
single shell invocation, otherwise keep the image entrypoint. -/
def create_container_container (image : String) (command : List String) : V1Container :=
  { name := "runner"
    image := image
    command :=
      if command ≠ [] then some ["/bin/sh", "-c", String.intercalate " " command]
      else none
    workingDir := none
    volumeMounts := []
    env := [] }

/-- Model of `K8sRun.parse_timeout` (k8r.py lines 467-476).  Python `int()`
raising on a malformed literal is modelled by `Except.error`. -/
def parse_timeout (timeoutStr : String) : Except String Int :=
  let toIntE (s : String) : Except String Int :=
    match pyInt? s with
    | some n => Except.ok n
    | none => Except.error ("invalid literal for int() with base 10: " ++ s)
  if pyEndsWith timeoutStr "s" then toIntE (pyDropRight timeoutStr 1)
  else if pyEndsWith timeoutStr "m" then (toIntE (pyDropRight timeoutStr 1)).map (· * 60)
  else if pyEndsWith timeoutStr "h" then (toIntE (pyDropRight timeoutStr 1)).map (· * 3600)
  else toIntE timeoutStr

/-! ## SecretBinder: the secret-mounting step of `create_job`
(k8r.py lines 236-296, repeated at 1140-1210) -/

/-- Volume name for a discovered secret: sanitized logical name with headroom
reserved for the `secret-` tag (max 56 = 63 - 7). -/
def secretVolumeName (secretName : String) : String :=
  "secret-" ++ sanitize_k8s_name secretName 56

/-- The single volume created for one discovered secret. -/
def volumeFor (s : SecretInfo) : V1Volume :=
  { name := secretVolumeName s.secret_name
    source := VolumeSource.secret s.name }

/-- The volume mounts created for one discovered secret: one per data key, at
`/k8r/secrets/<key>`, with `sub_path` the key, read-only. -/
def mountsFor (s : SecretInfo) : List V1VolumeMount :=
  s.data_keys.map (fun key =>
    { name := secretVolumeName s.secret_name
      mountPath := "/k8r/secrets/" ++ key
      subPath := some key
      readOnly := true })

/-- Environment-variable name for a secret key: upper-cased, with every hyphen
and dot replaced by an underscore (k8r.py line 271). -/
def envVarName (key : String) : String :=
  pyReplace (pyReplace (pyUpper key) "-" "_") "." "_"

/-- The environment variables created for one discovered secret: one per data
key, sourced from the platform secret-key reference. -/
def envVarsFor (s : SecretInfo) : List V1EnvVar :=
  s.data_keys.map (fun key =>
    { name := envVarName key
      refName := s.name
      refKey := key })

/-- The secret-mounting loop of `create_job` (k8r.py lines 244-282): one volume
per discovered secret, one mount and one environment variable per data key. -/
def mountSecrets (jobSecrets : List SecretInfo) :
    List V1Volume × List V1VolumeMount × List V1EnvVar :=
  (jobSecrets.map volumeFor,
    (jobSecrets.map mountsFor).flatten,
    (jobSecrets.map envVarsFor).flatten)

/-- The merge step of `create_job` (k8r.py lines 284-296): secret volumes are
appended to the pod volumes, and the secret mounts and environment variables
are appended to the container's existing lists (Python extends a non-empty
list and assigns otherwise; both are appends on this model). -/
def applyJobSecrets (container : V1Container) (volumes : List V1Volume)
    (jobSecrets : List SecretInfo) : V1Container × List V1Volume :=
  let parts := mountSecrets jobSecrets
  ({ container with
      volumeMounts := container.volumeMounts ++ parts.2.1
      env := container.env ++ parts.2.2 },
    volumes ++ parts.1)

/-! ## WorkloadBuilder: job assembly and `create_job` (k8r.py lines 203-347) -/

/-- Assembly of the `V1Job` object (k8r.py lines 304-344): restart policy is
`OnFailure` exactly when a retry limit is supplied, otherwise `Never`; the
backoff limit equals the retry limit when supplied and is pinned to 0
otherwise; fixed `created-by`/`k8r-job`/`k8r-source-type` labels. -/
def mkJobObject (finalJobName : String) (sourceType : String) (numInstances : Int)
    (timeoutSeconds : Int) (container : V1Container) (volumes : List V1Volume)
    (retryLimit : Option Int) : V1Job :=
  { name := finalJobName
    labels := [("created-by", "k8r"), ("k8r-source-type", sourceType)]
    spec :=
      { parallelism := numInstances
        completions := numInstances
        activeDeadlineSeconds := timeoutSeconds
        podLabels := [("created-by", "k8r"), ("k8r-job", finalJobName)]
        containers := [container]
        volumes := volumes
        restartPolicy := if retryLimit.isSome then "OnFailure" else "Never"
        backoffLimit :=
          match retryLimit with
          | some n => n
          | none => 0 } }

/-- Per-source-kind branch of `create_job` (k8r.py lines 215-234): the
container, the initial pod volumes, and the names of config maps created on
the platform before the job itself. -/
def sourceContainer (env : Env) (source : String) (sourceType : String)
    (finalJobName : String) (command : List String) (baseImage : String) :
    Except String (V1Container × List V1Volume × List String) :=
  if sourceType = "directory" then
    let configmapName := finalJobName ++ "-source"
    Except.ok (create_directory_container configmapName command baseImage,
      [{ name := "source", source := VolumeSource.configMap configmapName }],
      [configmapName])
  else if sourceType = "github" then
    Except.ok (create_github_container source command baseImage, [], [])
  else if sourceType = "dockerfile" then
    Except.ok (create_container_container (env.builtImage source finalJobName) command, [], [])
  else if sourceType = "container" then
    Except.ok (create_container_container source command, [], [])
  else
    Except.error ("Unsupported source type: " ++ sourceType)

/-- Result of a successful `create_job`: the returned name, the job object
applied to the platform, and the config maps created along the way. -/
structure CreateResult where
  jobName : String
  job : V1Job
  createdConfigMaps : List String
deriving DecidableEq, Repr

/-- Model of `K8sRun.create_job` (k8r.py lines 203-347): classify the source,
generate the fail-fast job name, parse the timeout, build the per-kind
container, discover and mount secrets (under `secret_job_name` when that is
truthy), and assemble the job object.  Any raised exception short-circuits as
`Except.error`, before any job is applied to the platform. -/
def create_job (env : Env) (source : String) (command : List String)
    (numInstances : Int := 1) (timeout : String := "1h")
    (baseImage : String := "alpine:latest") (jobName : Option String := none)
    (retryLimit : Option Int := none) (secretJobName : Option String := none) :
    Except String CreateResult :=
  match detect_source_type env source with
  | Except.error e => Except.error e
  | Except.ok sourceType =>
    match generate_job_name env source jobName false with
    | Except.error e => Except.error e
    | Except.ok finalJobName =>
      match parse_timeout timeout with
      | Except.error e => Except.error e
      | Except.ok timeoutSeconds =>
        match sourceContainer env source sourceType finalJobName command baseImage with
        | Except.error e => Except.error e
        | Except.ok (container, volumes, createdMaps) =>
          let secretsLookupName :=
            match secretJobName with
            | some n => if n ≠ "" then n else finalJobName
            | none => finalJobName
          let jobSecrets := env.jobSecrets secretsLookupName
          let merged := applyJobSecrets container volumes jobSecrets
          Except.ok
            { jobName := finalJobName
              job := mkJobObject finalJobName sourceType numInstances timeoutSeconds
                merged.1 merged.2 retryLimit
              createdConfigMaps := createdMaps }

/-! ## Claim C3: classification of a directory whose name ends in `Dockerfile` -/

/-- File system containing a single directory named `appDockerfile`. -/
def envDirNamedDockerfile : Env :=
  { isFile := fun _ => false
    isDir := fun s => s == "appDockerfile"
    pathExists := fun s => s == "appDockerfile"
    originalPwd := none
    cwd := "/home/user"
    abspath := fun s => "/home/user/" ++ s
    jobExists := fun _ => false
    jobSecrets := fun _ => []
    builtImage := fun _ _ => "registry/project/image:latest" }

/-- Counterexample to C3 as stated: `appDockerfile` is an existing directory
whose name ends in `Dockerfile`, yet `detect_source_type` classifies it as a
directory, not as a Dockerfile, because rule 1 requires an existing *file*
(or the exact name `Dockerfile`). -/
theorem detect_dir_dockerfile_counterexample :
    envDirNamedDockerfile.isDir "appDockerfile" = true
      ∧ pyEndsWith "appDockerfile" "Dockerfile" = true
      ∧ detect_source_type envDirNamedDockerfile "appDockerfile" = Except.ok "directory"
      ∧ detect_source_type envDirNamedDockerfile "appDockerfile" ≠ Except.ok "dockerfile" := by
  refine ⟨rfl, by decide, by rfl, ?_⟩
  intro h
  rw [show detect_source_type envDirNamedDockerfile "appDockerfile"
      = Except.ok "directory" from rfl] at h
  injection h with h'
  exact absurd h' (by decide)

/-- C3 (amended): a path that is both an existing directory and is exactly
`Dockerfile` classifies as the Dockerfile kind — rule 1 takes precedence over
the existing-directory rule 3 only through its exact-name disjunct; a
directory merely ending in `Dockerfile` is not an existing file and falls
through to rule 3. -/
theorem detect_source_type_exact_dockerfile (env : Env) (source : String)
    (hsrc : source = "Dockerfile") (_hdir : env.isDir source = true) :
    detect_source_type env source = Except.ok "dockerfile" := by
  subst hsrc
  rfl

/-- File system containing a single directory whose name is exactly
`Dockerfile`. -/
def envDirExactDockerfile : Env :=
  { isFile := fun _ => false
    isDir := fun s => s == "Dockerfile"
    pathExists := fun s => s == "Dockerfile"
    originalPwd := none
    cwd := "/home/user"
    abspath := fun s => "/home/user/" ++ s
    jobExists := fun _ => false
    jobSecrets := fun _ => []
    builtImage := fun _ _ => "registry/project/image:latest" }

/-- Witness for the amended C3: a directory named exactly `Dockerfile` is
classified as a Dockerfile. -/
theorem detect_source_type_exact_dockerfile_witness :
    envDirExactDockerfile.isDir "Dockerfile" = true
      ∧ detect_source_type envDirExactDockerfile "Dockerfile" = Except.ok "dockerfile" :=
  ⟨rfl, detect_source_type_exact_dockerfile envDirExactDockerfile "Dockerfile" rfl rfl⟩

/-! ## Claim C4: restart policy and backoff limit of the built job -/

/-- Restart policy and backoff limit of a job-creation outcome, when it
succeeded. -/
def jobPolicyOf : Except String CreateResult → Option (String × Int)
  | Except.ok r => some (r.job.spec.restartPolicy, r.job.spec.backoffLimit)
  | Except.error _ => none

theorem create_job_policy_key (env : Env) (source : String) (command : List String)
    (n : Int) (t img : String) (jn sjn : Option String) (rl : Option Int)
    (p : String × Int)
    (hp : jobPolicyOf (create_job env source command n t img jn rl sjn) = some p) :
    p = ((if rl.isSome then "OnFailure" else "Never"), rl.getD 0) := by
  rw [create_job] at hp
  split at hp
  · exact absurd hp (by rw [jobPolicyOf]; simp)
  · split at hp
    · exact absurd hp (by rw [jobPolicyOf]; simp)
    · split at hp
      · exact absurd hp (by rw [jobPolicyOf]; simp)
      · split at hp
        · exact absurd hp (by rw [jobPolicyOf]; simp)
        · simp only [jobPolicyOf, Option.some_inj] at hp
          cases rl with
          | none => exact hp.symm.trans (by rfl)
          | some k => exact hp.symm.trans (by rfl)

/-- C4: for every built job, when no retry limit is given the pod restart
policy is `Never` and the backoff limit equals exactly 0; when a retry limit
`N` is given (including `N = 0`) the restart policy is `OnFailure` and the
backoff limit equals exactly `N`. -/
theorem create_job_restart_backoff (env : Env) (source : String)
    (command : List String) (n : Int) (t img : String) (jn sjn : Option String) :
    (∀ p, jobPolicyOf (create_job env source command n t img jn none sjn) = some p →
        p = ("Never", 0))
      ∧ (∀ (k : Int) (p : String × Int),
          jobPolicyOf (create_job env source command n t img jn (some k) sjn) = some p →
          p = ("OnFailure", k)) :=
  ⟨fun p hp => create_job_policy_key env source command n t img jn sjn none p hp,
    fun k p hp => create_job_policy_key env source command n t img jn sjn (some k) p hp⟩

/-- Kubernetes and file system with no existing jobs, no secrets, and no
local paths: a plain container-image run. -/
def envPlainCluster : Env :=
  { isFile := fun _ => false
    isDir := fun _ => false
    pathExists := fun _ => false
    originalPwd := none
    cwd := "/home/user"
    abspath := fun s => "/home/user/" ++ s
    jobExists := fun _ => false
    jobSecrets := fun _ => []
    builtImage := fun _ _ => "registry/project/image:latest" }

/-- Witness for C4 at a concrete run of a `redis:7.0` container image, with no
retry limit and with retry limit 3. -/
theorem create_job_restart_backoff_witness :
    jobPolicyOf (create_job envPlainCluster "redis:7.0" ["redis-server", "--version"]
        1 "1h" "alpine:latest" none none none) = some ("Never", 0)
      ∧ jobPolicyOf (create_job envPlainCluster "redis:7.0" ["redis-server", "--version"]
        1 "1h" "alpine:latest" none (some 3) none) = some ("OnFailure", 3)
      ∧ (("Never", (0 : Int)) = ("Never", 0) ∧ ("OnFailure", (3 : Int)) = ("OnFailure", 3)) := by
  refine ⟨by rfl, by rfl, ?_, ?_⟩
  · exact (create_job_restart_backoff envPlainCluster "redis:7.0"
      ["redis-server", "--version"] 1 "1h" "alpine:latest" none none).1
      ("Never", 0) (by rfl)
  · exact (create_job_restart_backoff envPlainCluster "redis:7.0"
      ["redis-server", "--version"] 1 "1h" "alpine:latest" none none).2
      3 ("OnFailure", 3) (by rfl)

/-! ## Claim C6: shape of the secret volumes, mounts and environment variables -/

theorem mem_mountSecrets_mounts {secrets : List SecretInfo} {m : V1VolumeMount}
    (hm : m ∈ (mountSecrets secrets).2.1) :
    m.readOnly = true
      ∧ ∃ k, m.subPath = some k ∧ m.mountPath = "/k8r/secrets/" ++ k
        ∧ ∃ s ∈ secrets, k ∈ s.data_keys := by
  simp only [mountSecrets] at hm
  rcases List.mem_flatten.mp hm with ⟨ms, hms, hmmem⟩
  rcases List.mem_map.mp hms with ⟨s, hs, rfl⟩
  rw [mountsFor] at hmmem
  rcases List.mem_map.mp hmmem with ⟨k, hkmem, rfl⟩
  exact ⟨rfl, k, rfl, rfl, s, hs, hkmem⟩

theorem mem_mountSecrets_envs {secrets : List SecretInfo} {e : V1EnvVar}
    (he : e ∈ (mountSecrets secrets).2.2) :
    e.name = envVarName e.refKey ∧ ∃ s ∈ secrets, e.refName = s.name ∧ e.refKey ∈ s.data_keys := by
  simp only [mountSecrets] at he
  rcases List.mem_flatten.mp he with ⟨es, hes, hemem⟩
  rcases List.mem_map.mp hes with ⟨s, hs, rfl⟩
  rw [envVarsFor] at hemem
  rcases List.mem_map.mp hemem with ⟨k, hkmem, rfl⟩
  exact ⟨rfl, s, hs, rfl, hkmem⟩

/-- C6: when secret discovery returns exactly two secrets, each with exactly
two data keys, the built workload gains exactly 2 secret volumes, exactly 4
secret volume mounts (one per key at `/k8r/secrets/<key>`, read-only, with the
key as sub-path), and exactly 4 environment variables, every environment
variable name being the key upper-cased with every hyphen and dot replaced by
an underscore. -/
theorem applyJobSecrets_two_secrets (container : V1Container) (volumes : List V1Volume)
    (secrets : List SecretInfo) (h2 : secrets.length = 2)
    (hk : ∀ s ∈ secrets, s.data_keys.length = 2) :
    ((applyJobSecrets container volumes secrets).2.length = volumes.length + 2
      ∧ (applyJobSecrets container volumes secrets).1.volumeMounts.length
          = container.volumeMounts.length + 4
      ∧ (applyJobSecrets container volumes secrets).1.env.length
          = container.env.length + 4)
      ∧ (∀ m ∈ (mountSecrets secrets).2.1,
          m.readOnly = true
            ∧ ∃ k, m.subPath = some k ∧ m.mountPath = "/k8r/secrets/" ++ k
              ∧ ∃ s ∈ secrets, k ∈ s.data_keys)
      ∧ (∀ e ∈ (mountSecrets secrets).2.2,
          e.name = envVarName e.refKey
            ∧ ∃ s ∈ secrets, e.refName = s.name ∧ e.refKey ∈ s.data_keys) := by
  obtain ⟨s1, s2, rfl⟩ : ∃ s1 s2, secrets = [s1, s2] := by
    cases secrets with
    | nil => simp at h2
    | cons a u =>
      cases u with
      | nil => simp at h2
      | cons b v =>
        cases v with
        | nil => exact ⟨a, b, rfl⟩
        | cons c w => simp at h2
  have hk1 : s1.data_keys.length = 2 := hk s1 (by simp)
  have hk2 : s2.data_keys.length = 2 := hk s2 (by simp)
  refine ⟨⟨?_, ?_, ?_⟩, fun m hm => mem_mountSecrets_mounts hm,
    fun e he => mem_mountSecrets_envs he⟩
  · simp [applyJobSecrets, mountSecrets]
  · simp [applyJobSecrets, mountSecrets, mountsFor, hk1, hk2]
  · simp [applyJobSecrets, mountSecrets, envVarsFor, hk1, hk2]

/-- Two discovered secrets with two keys each, for the C6 witness. -/
def secretsExampleC6 : List SecretInfo :=
  [{ name := "myjob-alpha", secret_name := "alpha", data_keys := ["api-key", "ca.crt"] },
   { name := "myjob-beta", secret_name := "beta", data_keys := ["user", "pass"] }]

/-- Container with no prior mounts or environment, for the C6 witness. -/
def runnerExampleC6 : V1Container :=
  { name := "runner", image := "alpine:latest", command := none }

/-- Witness for C6 at two concrete secrets with two keys each: 2 volumes, 4
mounts, 4 environment variables, and the expected upper-cased names. -/
theorem applyJobSecrets_two_secrets_witness :
    secretsExampleC6.length = 2
      ∧ (∀ s ∈ secretsExampleC6, s.data_keys.length = 2)
      ∧ (applyJobSecrets runnerExampleC6 [] secretsExampleC6).2.length = 2
      ∧ (applyJobSecrets runnerExampleC6 [] secretsExampleC6).1.volumeMounts.length = 4
      ∧ (applyJobSecrets runnerExampleC6 [] secretsExampleC6).1.env.length = 4
      ∧ ((mountSecrets secretsExampleC6).2.2.map V1EnvVar.name)
          = ["API_KEY", "CA_CRT", "USER", "PASS"] := by
  have h := applyJobSecrets_two_secrets runnerExampleC6 [] secretsExampleC6
    (by decide) (by decide)
  exact ⟨by decide, by decide, h.1.1, h.1.2.1, h.1.2.2, by rfl⟩

/-! ## Claim C7: no duplicate volumes or mounts -/

/-- C7 (amended): for a discovered sequence whose platform secret names are
pairwise distinct — as returned by a single secret listing — no two produced
volumes reference the same secret, and each binding produces exactly one mount
per declared key, in order.  The step performs no deduplication: applying it
to a sequence repeated twice simply concatenates two copies of the volumes and
mounts. -/
theorem mountSecrets_no_dup (secrets : List SecretInfo)
    (hnames : (secrets.map SecretInfo.name).Nodup) :
    ((mountSecrets secrets).1.map (fun v => v.source)).Nodup
      ∧ (∀ s ∈ secrets, (mountsFor s).map V1VolumeMount.subPath = s.data_keys.map some)
      ∧ (mountSecrets (secrets ++ secrets)).1
          = (mountSecrets secrets).1 ++ (mountSecrets secrets).1
      ∧ (mountSecrets (secrets ++ secrets)).2.1
          = (mountSecrets secrets).2.1 ++ (mountSecrets secrets).2.1 := by
  refine ⟨?_, ?_, ?_, ?_⟩
  · have hmap : (mountSecrets secrets).1.map (fun v => v.source)
        = (secrets.map SecretInfo.name).map VolumeSource.secret := by
      simp only [mountSecrets, List.map_map]
      rfl
    rw [hmap]
    exact hnames.map (fun a b h => VolumeSource.secret.inj h)
  · intro s _
    simp only [mountsFor, List.map_map]
    rfl
  · simp [mountSecrets, List.map_append]
  · simp [mountSecrets, List.map_append]

/-- Two discovered secrets sharing a logical name but with distinct platform
names, for the C7 witness. -/
def secretsExampleC7 : List SecretInfo :=
  [{ name := "job1-alpha", secret_name := "alpha", data_keys := ["k1", "k2"] },
   { name := "job2-alpha", secret_name := "alpha", data_keys := ["k3"] }]

/-- Witness for the amended C7 at two concrete distinct bindings. -/
theorem mountSecrets_no_dup_witness :
    (secretsExampleC7.map SecretInfo.name).Nodup
      ∧ ((mountSecrets secretsExampleC7).1.map (fun v => v.source)).Nodup :=
  ⟨by decide, (mountSecrets_no_dup secretsExampleC7 (by decide)).1⟩

/-- A single discovered binding, used to run the binding application twice. -/
def secretBindingRepeated : SecretInfo :=
  { name := "platform-a", secret_name := "log", data_keys := ["key1"] }

/-- Container with no prior mounts or environment, for the C7 counterexample. -/
def runnerExampleC7 : V1Container :=
  { name := "runner", image := "alpine:latest", command := none }

/-- Result of applying the secret-binding step twice to the same binding. -/
def doubleBoundC7 : V1Container × List V1Volume :=
  applyJobSecrets (applyJobSecrets runnerExampleC7 [] [secretBindingRepeated]).1
    (applyJobSecrets runnerExampleC7 [] [secretBindingRepeated]).2
    [secretBindingRepeated]

/-- Counterexample to C7 as stated: running the binding application twice on
the same binding yields two volumes referencing the same secret and two mounts
for its single declared key — the code performs no deduplication. -/
theorem secret_mount_duplication_counterexample :
    doubleBoundC7.2.map (fun v => v.source)
        = [VolumeSource.secret "platform-a", VolumeSource.secret "platform-a"]
      ∧ ¬ (doubleBoundC7.2.map (fun v => v.source)).Nodup
      ∧ doubleBoundC7.1.volumeMounts.length = 2
      ∧ secretBindingRepeated.data_keys.length = 1 := by
  refine ⟨by rfl, by decide, by rfl, by rfl⟩

/-! ## Claim C8: fail-fast naming policy -/

/-- C8: under the fail-fast policy, for every source and name override whose
base name computes, if a job with the generated (sanitized) name already
exists and existing names are not explicitly allowed, name generation raises
the naming-conflict error instructing the caller to remove the prior resource,
and `create_job` propagates that error before creating any workload; if no
such job exists, the generated name is returned. -/
theorem generate_job_name_fail_fast (env : Env) (source : String)
    (jobName : Option String) (base : String)
    (hb : baseNameOf env source jobName = Except.ok base) :
    (env.jobExists (sanitize_k8s_name base 55) = true →
        generate_job_name env source jobName false
            = Except.error (conflictMessage (sanitize_k8s_name base 55))
          ∧ ∀ (command : List String) (n : Int) (t img : String) (rl : Option Int)
              (sjn : Option String) (st : String),
              detect_source_type env source = Except.ok st →
              create_job env source command n t img jobName rl sjn
                = Except.error (conflictMessage (sanitize_k8s_name base 55)))
      ∧ (env.jobExists (sanitize_k8s_name base 55) = false →
          ∀ allow, generate_job_name env source jobName allow
              = Except.ok (sanitize_k8s_name base 55)) := by
  constructor
  · intro hex
    have hgen : generate_job_name env source jobName false
        = Except.error (conflictMessage (sanitize_k8s_name base 55)) := by
      rw [generate_job_name, hb]
      simp [hex]
    refine ⟨hgen, ?_⟩
    intro command n t img rl sjn st hdet
    rw [create_job, hdet, hgen]
  · intro hex allow
    rw [generate_job_name, hb]
    simp [hex]

/-- Cluster on which a job named `myjob` already exists. -/
def envTakenName : Env :=
  { isFile := fun _ => false
    isDir := fun _ => false
    pathExists := fun _ => false
    originalPwd := none
    cwd := "/home/user"
    abspath := fun s => "/home/user/" ++ s
    jobExists := fun s => s == "myjob"
    jobSecrets := fun _ => []
    builtImage := fun _ _ => "registry/project/image:latest" }

/-- Cluster with no existing jobs, for the non-conflicting half of C8. -/
def envFreeName : Env :=
  { isFile := fun _ => false
    isDir := fun _ => false
    pathExists := fun _ => false
    originalPwd := none
    cwd := "/home/user"
    abspath := fun s => "/home/user/" ++ s
    jobExists := fun _ => false
    jobSecrets := fun _ => []
    builtImage := fun _ _ => "registry/project/image:latest" }

/-- Witness for C8: with an existing `myjob`, both name generation and the
whole job creation fail with the conflict error; on a free cluster the
generated name is returned. -/
theorem generate_job_name_fail_fast_witness :
    baseNameOf envTakenName "redis:7.0" (some "myjob") = Except.ok "myjob"
      ∧ envTakenName.jobExists (sanitize_k8s_name "myjob" 55) = true
      ∧ generate_job_name envTakenName "redis:7.0" (some "myjob") false
          = Except.error (conflictMessage (sanitize_k8s_name "myjob" 55))
      ∧ create_job envTakenName "redis:7.0" ["echo", "hello"] 1 "1h" "alpine:latest"
          (some "myjob") none none
          = Except.error (conflictMessage (sanitize_k8s_name "myjob" 55))
      ∧ generate_job_name envFreeName "redis:7.0" (some "myjob") false
          = Except.ok (sanitize_k8s_name "myjob" 55) := by
  have ht := generate_job_name_fail_fast envTakenName "redis:7.0" (some "myjob") "myjob" (by rfl)
  have hf := generate_job_name_fail_fast envFreeName "redis:7.0" (some "myjob") "myjob" (by rfl)
  exact ⟨by rfl, by rfl, (ht.1 (by rfl)).1,
    (ht.1 (by rfl)).2 ["echo", "hello"] 1 "1h" "alpine:latest" none none "container" (by rfl),
    hf.2 (by rfl) false⟩

end K8r
